import Mathlib

/-!
Shallow embedding of the ckanext-transmute data-transformation engine.

Source files embedded:
  - ckanext/transmute/logic/action/get.py (the transmute action and engine)
  - ckanext/transmute/transmutators.py (the built-in transmutators)

The modules ckanext/transmute/types.py, schema.py and exception.py are part of
the repository but absent from the provided sources; the data structures they
declare (Field, SchemaField, SchemaParser, the error classes) are modelled from
the specification, as marked on each definition.

The host language mutates dictionaries in place; the embedding passes record
states explicitly and returns the final state, and fallible operations return
Except.  Python truthiness is embedded as an explicit predicate on values.
-/

namespace Transmute

/-- A dynamic value of the host language, as far as the engine inspects it:
none/null, booleans, integers, strings, lists, and string-keyed dictionaries.
Dictionaries are insertion-ordered association lists, matching the host
language's ordered dictionaries. -/
inductive Value where
  | vnull : Value
  | vbool : Bool → Value
  | vint : Int → Value
  | vstr : String → Value
  | vlist : List Value → Value
  | vdict : List (String × Value) → Value

/-- A record: a string-keyed, insertion-ordered dictionary of values. -/
abbrev Record := List (String × Value)

/-- Host-language truthiness of a value: none, false, zero, the empty string,
the empty list and the empty dictionary are falsy, everything else is truthy. -/
def truthy : Value → Bool
  | .vnull => false
  | .vbool b => b
  | .vint n => n != 0
  | .vstr s => s != ""
  | .vlist l => !l.isEmpty
  | .vdict d => !d.isEmpty

/-- Truthiness of an optional value: an absent attribute is falsy, a present
one is as truthy as its value.  Embeds checks such as `if field.default`. -/
def optTruthy : Option Value → Bool
  | none => false
  | some v => truthy v

/-- Truthiness of an optional string attribute: absent or empty is falsy.
Embeds checks such as `if field.map_to`. -/
def strTruthy : Option String → Bool
  | none => false
  | some s => s != ""

/-- First value bound to a key in an association list, if any.
Embeds `d.get(k)` and the membership test `k in d`. -/
def alookup {α : Type} : List (String × α) → String → Option α
  | [], _ => none
  | (k', v) :: rest, k => if k' = k then some v else alookup rest k

/-- Write a key in an association list: an existing key keeps its position and
gets the new value, a new key is appended at the end, exactly as dictionary
assignment behaves in the host language.  Embeds `d[k] = v`. -/
def aset : Record → String → Value → Record
  | [], k, v => [(k, v)]
  | (k', v') :: rest, k, v =>
      if k' = k then (k, v) :: rest else (k', v') :: aset rest k v

/-- Remove a key from an association list (first occurrence). -/
def aremove : Record → String → Record
  | [], _ => []
  | (k', v') :: rest, k => if k' = k then rest else (k', v') :: aremove rest k

/-- The error outcomes of the engine.  The exception module of the repository
is not among the provided sources; the taxonomy is modelled from the spec. -/
inductive Err where
  /-- A transmutator rejected a value (df.Invalid), carrying a message. -/
  | invalid : String → Err
  /-- The engine's ValidationError: a payload mapping one composite key to a
  list of messages (modelled from the spec's error payload shape). -/
  | validationError : String → List String → Err
  /-- Subscripting the record with an absent key.  The spec names this
  condition MissingData; in the host language it is the dictionary KeyError
  raised by `data[key]` on a missing key. -/
  | missingData : String → Err
  /-- Attribute access on a value that lacks it, e.g. `.lower()` or `.copy()`
  on a non-string / non-dictionary value. -/
  | attributeError : Err
  /-- Iterating a non-iterable value. -/
  | typeError : Err
  /-- A validator name not present in the registry. -/
  | unknownValidator : String → Err
  /-- Recursion budget of the embedding exhausted.  The source has no cycle
  guard, so a self-nesting schema recurses without bound; the embedding makes
  that explicit with a fuel parameter. -/
  | fuelExhausted : Err
  deriving DecidableEq, Repr

/-- Subscript a record: `data[k]`, failing with the missing-key error when the
key is absent. -/
def aget (d : Record) (k : String) : Except Err Value :=
  match alookup d k with
  | some v => .ok v
  | none => .error (.missingData k)

/-- `data.pop(k)`: remove the key and return its value together with the
record without it, failing when the key is absent. -/
def apop (d : Record) (k : String) : Except Err (Value × Record) :=
  match alookup d k with
  | some v => .ok (v, aremove d k)
  | none => .error (.missingData k)

/-- Iteration over a host-language value, as `for x in value` sees it:
a list yields its elements, a string its one-character substrings, a
dictionary its keys; other values are not iterable. -/
def pyIter : Value → Except Err (List Value)
  | .vlist l => .ok l
  | .vstr s => .ok (s.data.map fun c => .vstr (String.mk [c]))
  | .vdict d => .ok (d.map fun kv => .vstr kv.1)
  | _ => .error .typeError

/-- Modelled from the spec: the Field value object of the types module (absent
from the provided sources) — field name, current value, and the schema type
name the field belongs to. -/
structure Field where
  field_name : String
  value : Value
  type : String

/-- Modelled from the spec: the parsed per-field descriptor (SchemaField) of
the schema module (absent from the provided sources).  Undeclared attributes
are none and falsy, as on the parsed object. -/
structure SchemaField where
  remove : Bool := false
  default : Option Value := none
  default_from : Option String := none
  replace_from : Option String := none
  value : Option Value := none
  map_to : Option String := none
  type : String := "Dataset"
  multiple : Bool := false
  validators : List String := []

/-- Modelled from the spec: the resolved accessor for the default_from
reference; it yields the referenced sibling field name. -/
def SchemaField.get_default_from (f : SchemaField) : String :=
  f.default_from.getD ""

/-- Modelled from the spec: the resolved accessor for the replace_from
reference; it yields the referenced sibling field name. -/
def SchemaField.get_replace_from (f : SchemaField) : String :=
  f.replace_from.getD ""

/-- Modelled from the spec: the multiple flag recorded by the parser — true
when the declared shape is a sequence of nested records. -/
def SchemaField.is_multiple (f : SchemaField) : Bool :=
  f.multiple

/-- One declared type of the parsed schema: its mapping from field name to
descriptor (the `schema["fields"]` mapping the engine reads). -/
structure TypeSchema where
  fields : List (String × SchemaField)

/-- Modelled from the spec: the SchemaParser of the schema module (absent from
the provided sources) — the parsed schema, exposing per-type field
descriptors keyed by type name. -/
structure SchemaParser where
  types : List (String × TypeSchema)

/-- Modelled from the spec: the types lookup used by the engine.  Looking up
a type name not present in the schema yields no schema for that type, which
the engine treats as falsy and hence as a no-op, not as an error. -/
def SchemaParser.getType (s : SchemaParser) (root : String) : Option TypeSchema :=
  alookup s.types root

/-- Whether a value is a string, as `isinstance(field.value, str)` tests. -/
def Value.isStr : Value → Bool
  | .vstr _ => true
  | _ => false

/-- transmutators.py, to_lowercase: `field.value = field.value.lower()`.
Only a string has a lower method; any other value fails attribute access. -/
def to_lowercase (field : Field) : Except Err Field :=
  match field.value with
  | .vstr s => .ok { field with value := .vstr s.toLower }
  | _ => .error .attributeError

/-- transmutators.py, to_uppercase: `field.value = field.value.upper()`. -/
def to_uppercase (field : Field) : Except Err Field :=
  match field.value with
  | .vstr s => .ok { field with value := .vstr s.toUpper }
  | _ => .error .attributeError

/-- transmutators.py, string_only: rejects a non-string value with
Invalid("Must be a string value") and returns the field unchanged otherwise. -/
def string_only (field : Field) : Except Err Field :=
  if field.value.isStr then .ok field
  else .error (.invalid "Must be a string value")

/-- The validator registry as the engine sees it through the host toolkit:
the built-in transmutators registered under their tsm_-prefixed names.
tsm_name_validator and tsm_isodate delegate to host-platform validators that
are external dependencies of the repository and are not embedded; no claim
exercises them.  An unrecognised name has no entry. -/
def get_validator : String → Option (Field → Except Err Field)
  | "tsm_to_lowercase" => some to_lowercase
  | "tsm_to_uppercase" => some to_uppercase
  | "tsm_string_only" => some string_only
  | _ => none

/-- The loop of _apply_validators: thread the field through each named
validator in order.  On failure it reports the error together with the field
the loop variable holds at that moment (the field the failing validator
received), which the exception handler of the source reads.  A name missing
from the registry fails with the unknown-validator error of the host
toolkit's lookup, which is not an Invalid and is not converted. -/
def applyChain : Field → List String → Except (Field × Err) Field
  | field, [] => .ok field
  | field, v :: rest =>
    match get_validator v with
    | none => .error (field, .unknownValidator v)
    | some f =>
      match f field with
      | .ok field' => applyChain field' rest
      | .error e => .error (field, e)

/-- get.py, _apply_validators: applies the chain and returns the final field
value; an Invalid raised by a transmutator is caught and re-raised as a
ValidationError mapping the composite key type:field_name to the one-element
list holding the message; any other failure propagates unconverted. -/
def apply_validators (field : Field) (validators : List String) : Except Err Value :=
  match applyChain field validators with
  | .ok f => .ok f.value
  | .error (f, .invalid msg) =>
      .error (.validationError (f.type ++ ":" ++ f.field_name) [msg])
  | .error (_, e) => .error e

/-- `if field.default and not value: data[field_name] = value = field.default`
of pass 1: a truthiness test on the default itself, so a falsy default never
fires.  Each step threads the pair of the record state and the local
variable value of the source loop. -/
def stepDefault (field : SchemaField) (field_name : String)
    (sv : Record × Value) : Record × Value :=
  if optTruthy field.default && !truthy sv.2 then
    let v := field.default.getD .vnull
    (aset sv.1 field_name v, v)
  else sv

/-- `if field.default_from and not value: data[field_name] = value =
data[field.get_default_from()]` of pass 1. -/
def stepDefaultFrom (field : SchemaField) (field_name : String)
    (sv : Record × Value) : Except Err (Record × Value) :=
  if strTruthy field.default_from && !truthy sv.2 then
    (aget sv.1 field.get_default_from).bind fun v => .ok (aset sv.1 field_name v, v)
  else .ok sv

/-- `if field.replace_from: data[field_name] = value =
data[field.get_replace_from()]` of pass 1. -/
def stepReplaceFrom (field : SchemaField) (field_name : String)
    (sv : Record × Value) : Except Err (Record × Value) :=
  if strTruthy field.replace_from then
    (aget sv.1 field.get_replace_from).bind fun v => .ok (aset sv.1 field_name v, v)
  else .ok sv

/-- `if field.value: data[field_name] = value = field.value` of pass 1. -/
def stepValue (field : SchemaField) (field_name : String)
    (sv : Record × Value) : Record × Value :=
  if optTruthy field.value then
    let v := field.value.getD .vnull
    (aset sv.1 field_name v, v)
  else sv

/-- The multiple / scalar branch of pass 1: either recurse into each element
of a multiple field through recur (the engine at the remaining fuel), or
apply the validator chain and write the result back.  In-place mutation of
the elements of a multiple field is modelled by writing the transmuted
elements back to the field's key, which matches the source whenever that key
still holds the iterated list. -/
def stepValidate (recur : Value → String → Except Err Value)
    (field : SchemaField) (root field_name : String)
    (sv : Record × Value) : Except Err Record :=
  if field.is_multiple then
    (pyIter sv.2).bind fun elems =>
    (elems.mapM fun e => recur e field.type).bind fun elems2 =>
    match sv.2 with
    | .vlist _ => .ok (aset sv.1 field_name (.vlist elems2))
    | _ => .ok sv.1
  else
    (apply_validators ⟨field_name, sv.2, root⟩ field.validators).bind fun v =>
    .ok (aset sv.1 field_name v)

/-- `if field.map_to: data[field.map_to] = data.pop(field_name)` of pass 1. -/
def stepMapTo (field : SchemaField) (field_name : String) (st : Record) :
    Except Err Record :=
  if strTruthy field.map_to then
    (apop st field_name).bind fun x => .ok (aset x.2 (field.map_to.getD "") x.1)
  else .ok st

/-- The loop body of mutate_old_fields (pass 1 of get.py) for one snapshot
entry (field_name, value): skip undeclared fields; pop removed ones; then run
the five value-sourcing / validation statements of the source in order,
threading the record state and the local variable value, and finally rename
through map_to. -/
def processOldField (recur : Value → String → Except Err Value)
    (schema : TypeSchema) (root : String)
    (st : Record) (field_name : String) (value : Value) : Except Err Record :=
  match alookup schema.fields field_name with
  | none => .ok st
  | some field =>
    if field.remove then
      (apop st field_name).bind fun x => .ok x.2
    else
      (stepDefaultFrom field field_name (stepDefault field field_name (st, value))).bind
        fun sv =>
      (stepReplaceFrom field field_name sv).bind fun sv =>
      (stepValidate recur field root field_name (stepValue field field_name sv)).bind
        fun st =>
      stepMapTo field field_name st

/-- get.py, mutate_old_fields (pass 1): fold the per-field step over a
snapshot of the record (data.copy().items()), threading the mutated record.
The none case of the type lookup is unreachable from the engine, whose entry
returns before calling the passes when the type has no schema. -/
def mutate_old_fields_go (recur : Value → String → Except Err Value)
    (data : Record) (definition : SchemaParser) (root : String) :
    Except Err Record :=
  match definition.getType root with
  | none => .ok data
  | some schema =>
      data.foldlM (fun st kv => processOldField recur schema root st kv.1 kv.2) data

/-- The loop body of create_new_fields (pass 2 of get.py) for one declared
field: skip fields already present in the record; source a value from the
default_from sibling, then the replace_from sibling, then a truthy literal
value; skip the field if still absent; otherwise apply the validator chain
to the created value.  Pass 2 performs no nested recursion and does not
consult the multiple flag. -/
def processNewField (root : String) (st : Record) (field_name : String)
    (field : SchemaField) : Except Err Record :=
  if (alookup st field_name).isSome then .ok st
  else
    (if strTruthy field.default_from then
      (aget st field.get_default_from).bind fun v => .ok (aset st field_name v)
    else .ok st).bind fun st =>
    (if strTruthy field.replace_from then
      (aget st field.get_replace_from).bind fun v => .ok (aset st field_name v)
    else .ok st).bind fun st =>
    let st :=
      if optTruthy field.value then aset st field_name (field.value.getD .vnull)
      else st
    if (alookup st field_name).isNone then .ok st
    else
      (aget st field_name).bind fun v =>
      (apply_validators ⟨field_name, v, root⟩ field.validators).bind fun v2 =>
      .ok (aset st field_name v2)

/-- get.py, create_new_fields (pass 2): fold the per-field step over the
declared fields of the type.  The none case of the type lookup is
unreachable from the engine, as for pass 1. -/
def create_new_fields (data : Record) (definition : SchemaParser)
    (root : String) : Except Err Record :=
  match definition.getType root with
  | none => .ok data
  | some schema =>
      schema.fields.foldlM (fun st kv => processNewField root st kv.1 kv.2) data

/-- The two passes of _transmute_data in order, with recur standing for the
engine at the remaining fuel for the nested calls of pass 1. -/
def transmute_body (recur : Value → String → Except Err Value)
    (data : Record) (definition : SchemaParser) (root : String) :
    Except Err Record :=
  (mutate_old_fields_go recur data definition root).bind fun d1 =>
  create_new_fields d1 definition root

/-- get.py, _transmute_data on an arbitrary value, as the nested calls of
pass 1 invoke it: look up the root type first and return the data untouched
when no schema exists for it (the intentional no-op); otherwise the data must
be a dictionary (anything else fails attribute access on data.copy().items())
and the two passes run.  The fuel bounds the recursion depth, which the
source leaves unbounded (it has no cycle guard). -/
def transmute_data (definition : SchemaParser) :
    Nat → Value → String → Except Err Value
  | 0, _, _ => .error .fuelExhausted
  | fuel + 1, data, root =>
    match definition.getType root with
    | none => .ok data
    | some _ =>
      match data with
      | .vdict d =>
          (transmute_body (fun v r => transmute_data definition fuel v r)
            d definition root).map .vdict
      | _ => .error .attributeError

/-- get.py, _transmute_data applied to a record (dictionary), the shape the
action always supplies: the type lookup guard followed by the two passes,
nested calls running at the given fuel. -/
def transmute_data_dict (definition : SchemaParser) (fuel : Nat)
    (data : Record) (root : String) : Except Err Record :=
  match definition.getType root with
  | none => .ok data
  | some _ =>
      transmute_body (fun v r => transmute_data definition fuel v r)
        data definition root

/-- get.py, mutate_old_fields with the engine at the given fuel as the
recursive call for nested records. -/
def mutate_old_fields (definition : SchemaParser) (fuel : Nat)
    (data : Record) (root : String) : Except Err Record :=
  mutate_old_fields_go (fun v r => transmute_data definition fuel v r)
    data definition root

/-- get.py, the transmute action body after the access check: it binds
data = data_dict["data"] without copying, mutates that dictionary in place
through _transmute_data with root fixed at Dataset, and returns it.  The
in-place mutation is modelled by explicit state passing: the result pairs
the record the caller's reference sees after the call with the returned
record, and the two are the same object.  The parsing of the raw schema by
SchemaParser is not embedded; the action receives the parsed schema. -/
def transmute (fuel : Nat) (data : Record) (definition : SchemaParser) :
    Except Err (Record × Record) :=
  (transmute_data_dict definition fuel data "Dataset").map fun d => (d, d)

/-! Helper lemmas about the record operations. -/

theorem alookup_aset_self (d : Record) (k : String) (v : Value) :
    alookup (aset d k v) k = some v := by
  induction d with
  | nil => simp [aset, alookup]
  | cons hd tl ih =>
      obtain ⟨k', v'⟩ := hd
      by_cases h : k' = k <;> simp [aset, alookup, h, ih]

theorem alookup_aset_ne (d : Record) {k1 k2 : String} (h : k1 ≠ k2) (v : Value) :
    alookup (aset d k1 v) k2 = alookup d k2 := by
  induction d with
  | nil => simp [aset, alookup, h]
  | cons hd tl ih =>
      obtain ⟨k', v'⟩ := hd
      by_cases hk : k' = k1
      · subst hk; simp [aset, alookup, h]
      · simp [aset, alookup, hk, ih]

theorem alookup_aremove_ne (d : Record) {k1 k2 : String} (h : k1 ≠ k2) :
    alookup (aremove d k1) k2 = alookup d k2 := by
  induction d with
  | nil => simp [aremove, alookup]
  | cons hd tl ih =>
      obtain ⟨k', v'⟩ := hd
      by_cases hk : k' = k1
      · subst hk; simp [aremove, alookup, h]
      · simp [aremove, alookup, hk, ih]

theorem aset_aset (d : Record) (k : String) (v w : Value) :
    aset (aset d k v) k w = aset d k w := by
  induction d with
  | nil => simp [aset]
  | cons hd tl ih =>
      obtain ⟨k', v'⟩ := hd
      by_cases h : k' = k <;> simp [aset, h, ih]

theorem alookup_mem {α : Type} {d : List (String × α)} {k : String} {x : α}
    (h : alookup d k = some x) : (k, x) ∈ d := by
  induction d with
  | nil => simp [alookup] at h
  | cons hd tl ih =>
      obtain ⟨k', v'⟩ := hd
      by_cases hk : k' = k
      · subst hk
        simp [alookup] at h
        simp [h]
      · simp [alookup, hk] at h
        simp [ih h]

theorem optTruthy_some (v : Value) : optTruthy (some v) = truthy v := rfl

theorem optTruthy_none : optTruthy none = false := rfl

theorem strTruthy_some (s : String) : strTruthy (some s) = (s != "") := rfl

theorem strTruthy_none : strTruthy none = false := rfl

theorem bindE_ok {α β : Type} {x : Except Err α} {f : α → Except Err β} {b : β}
    (h : x.bind f = .ok b) : ∃ a, x = .ok a ∧ f a = .ok b := by
  cases x with
  | error e => exact Except.noConfusion h
  | ok a => exact ⟨a, rfl, h⟩

theorem aget_ok {d : Record} {k : String} {v : Value} (h : aget d k = .ok v) :
    alookup d k = some v := by
  unfold aget at h
  cases hl : alookup d k with
  | none => rw [hl] at h; exact Except.noConfusion h
  | some w =>
      rw [hl] at h
      injection h with h2
      rw [h2]

theorem apop_ok {d : Record} {k : String} {x : Value × Record}
    (h : apop d k = .ok x) : alookup d k = some x.1 ∧ x.2 = aremove d k := by
  unfold apop at h
  cases hl : alookup d k with
  | none => rw [hl] at h; exact Except.noConfusion h
  | some w =>
      rw [hl] at h
      injection h with h2
      subst h2
      exact ⟨rfl, rfl⟩

/-- Threading a fold of fallible steps preserves the value a key looks up to,
as long as every successful step on a list element preserves it. -/
theorem foldlM_lookup_preserved {α : Type} (step : Record → α → Except Err Record)
    (k : String) :
    ∀ (l : List α),
      (∀ st x st', x ∈ l → step st x = .ok st' → alookup st' k = alookup st k) →
      ∀ (st st' : Record), l.foldlM step st = .ok st' →
        alookup st' k = alookup st k := by
  intro l
  induction l with
  | nil =>
      intro _ st st' h
      simp only [List.foldlM_nil, pure, Except.pure, Except.ok.injEq] at h
      subst h; rfl
  | cons x xs ih =>
      intro hstep st st' h
      rw [List.foldlM_cons] at h
      cases hx : step st x with
      | error e =>
          rw [hx] at h
          simp only [bind, Except.bind] at h
          exact Except.noConfusion h
      | ok st1 =>
          rw [hx] at h
          simp only [bind, Except.bind] at h
          have hxs := ih (fun st y st' hy => hstep st y st' (List.mem_cons_of_mem x hy))
          rw [hxs st1 st' h, hstep st x st1 (List.mem_cons_self x xs) hx]

theorem mem_ne_of_alookup_none {α : Type} {k k' : String} {x : α} :
    ∀ {d : List (String × α)}, alookup d k = none → (k', x) ∈ d → k' ≠ k := by
  intro d
  induction d with
  | nil => intro _ hmem; simp at hmem
  | cons hd tl ih =>
      obtain ⟨k0, v0⟩ := hd
      intro hnone hmem
      by_cases hk : k0 = k
      · subst hk; simp [alookup] at hnone
      · have hnone2 : alookup tl k = none := by simpa [alookup, hk] using hnone
        rcases List.mem_cons.mp hmem with h | h
        · injection h with h1 _
          subst h1
          exact hk
        · exact ih hnone2 h

/-! Frame lemmas: a pass-1 / pass-2 step for one field leaves the binding of
any other key untouched. -/

theorem stepDefault_fst_lookup (field : SchemaField) {fname k : String}
    (h : fname ≠ k) (sv : Record × Value) :
    alookup (stepDefault field fname sv).1 k = alookup sv.1 k := by
  unfold stepDefault
  split <;> simp [alookup_aset_ne _ h]

theorem stepDefaultFrom_lookup {field : SchemaField} {fname k : String}
    {sv sv' : Record × Value} (h : fname ≠ k)
    (hs : stepDefaultFrom field fname sv = .ok sv') :
    alookup sv'.1 k = alookup sv.1 k := by
  unfold stepDefaultFrom at hs
  split at hs
  · obtain ⟨v, _, h2⟩ := bindE_ok hs
    obtain rfl := Except.ok.inj h2
    simp [alookup_aset_ne _ h]
  · obtain rfl := Except.ok.inj hs
    rfl

theorem stepReplaceFrom_lookup {field : SchemaField} {fname k : String}
    {sv sv' : Record × Value} (h : fname ≠ k)
    (hs : stepReplaceFrom field fname sv = .ok sv') :
    alookup sv'.1 k = alookup sv.1 k := by
  unfold stepReplaceFrom at hs
  split at hs
  · obtain ⟨v, _, h2⟩ := bindE_ok hs
    obtain rfl := Except.ok.inj h2
    simp [alookup_aset_ne _ h]
  · obtain rfl := Except.ok.inj hs
    rfl

theorem stepValue_fst_lookup (field : SchemaField) {fname k : String}
    (h : fname ≠ k) (sv : Record × Value) :
    alookup (stepValue field fname sv).1 k = alookup sv.1 k := by
  unfold stepValue
  split <;> simp [alookup_aset_ne _ h]

theorem stepValidate_lookup {recur : Value → String → Except Err Value}
    {field : SchemaField} {root fname k : String} {sv : Record × Value}
    {st' : Record} (h : fname ≠ k)
    (hs : stepValidate recur field root fname sv = .ok st') :
    alookup st' k = alookup sv.1 k := by
  unfold stepValidate at hs
  split at hs
  · obtain ⟨elems, _, h2⟩ := bindE_ok hs
    obtain ⟨elems2, _, h3⟩ := bindE_ok h2
    split at h3 <;> obtain rfl := Except.ok.inj h3
    · simp [alookup_aset_ne _ h]
    · rfl
  · obtain ⟨v, _, h2⟩ := bindE_ok hs
    obtain rfl := Except.ok.inj h2
    simp [alookup_aset_ne _ h]

theorem stepMapTo_lookup {field : SchemaField} {fname k : String}
    {st st' : Record} (h : fname ≠ k) (hmt : field.map_to ≠ some k)
    (hs : stepMapTo field fname st = .ok st') :
    alookup st' k = alookup st k := by
  unfold stepMapTo at hs
  split at hs
  · rename_i hcond
    obtain ⟨x, h1, h2⟩ := bindE_ok hs
    obtain rfl := Except.ok.inj h2
    obtain ⟨-, hx2⟩ := apop_ok h1
    rw [hx2]
    cases hm : field.map_to with
    | none => rw [hm] at hcond; simp [strTruthy] at hcond
    | some t =>
        have ht : t ≠ k := fun he => hmt (by rw [hm, he])
        simp only [Option.getD_some]
        rw [alookup_aset_ne _ ht, alookup_aremove_ne _ h]
  · obtain rfl := Except.ok.inj hs
    rfl

/-- A successful pass-1 step for one snapshot entry does not change what any
key undeclared in the schema and not targeted by any map_to looks up to. -/
theorem processOldField_preserves {recur : Value → String → Except Err Value}
    {schema : TypeSchema} {root : String} {st : Record} {fname k : String}
    {value : Value} {st' : Record}
    (hk : alookup schema.fields k = none)
    (hmap : ∀ p ∈ schema.fields, p.2.map_to ≠ some k)
    (hproc : processOldField recur schema root st fname value = .ok st') :
    alookup st' k = alookup st k := by
  cases hf : alookup schema.fields fname with
  | none =>
      simp only [processOldField, hf, Except.ok.injEq] at hproc
      rw [hproc]
  | some field =>
      simp only [processOldField, hf] at hproc
      have hne : fname ≠ k := mem_ne_of_alookup_none hk (alookup_mem hf)
      have hmt : field.map_to ≠ some k := hmap (fname, field) (alookup_mem hf)
      split at hproc
      · obtain ⟨x, h1, h2⟩ := bindE_ok hproc
        obtain rfl := Except.ok.inj h2
        obtain ⟨-, hx2⟩ := apop_ok h1
        rw [hx2]
        exact alookup_aremove_ne _ hne
      · obtain ⟨sv1, h1, hrest⟩ := bindE_ok hproc
        obtain ⟨sv2, h2, hrest2⟩ := bindE_ok hrest
        obtain ⟨st3, h3, h4⟩ := bindE_ok hrest2
        calc alookup st' k
            = alookup st3 k := stepMapTo_lookup hne hmt h4
          _ = alookup (stepValue field fname sv2).1 k := stepValidate_lookup hne h3
          _ = alookup sv2.1 k := stepValue_fst_lookup field hne sv2
          _ = alookup sv1.1 k := stepReplaceFrom_lookup hne h2
          _ = alookup (stepDefault field fname (st, value)).1 k :=
              stepDefaultFrom_lookup hne h1
          _ = alookup st k := stepDefault_fst_lookup field hne (st, value)

/-- The final part of a pass-2 step (presence re-check and validator
application) does not change what any other key looks up to. -/
theorem newTail_lookup {root fname k : String} {vs : List String}
    {B st' : Record} (hne : fname ≠ k)
    (hs : (if (alookup B fname).isNone then Except.ok B
           else (aget B fname).bind fun v =>
                (apply_validators ⟨fname, v, root⟩ vs).bind fun v2 =>
                Except.ok (aset B fname v2)) = .ok st') :
    alookup st' k = alookup B k := by
  split at hs
  · obtain rfl := Except.ok.inj hs
    rfl
  · obtain ⟨v, -, h2⟩ := bindE_ok hs
    obtain ⟨v2, -, h3⟩ := bindE_ok h2
    obtain rfl := Except.ok.inj h3
    exact alookup_aset_ne _ hne _

/-- A successful pass-2 step for one declared field does not change what any
other key looks up to. -/
theorem processNewField_preserves {root : String} {st : Record}
    {fname k : String} {field : SchemaField} {st' : Record} (hne : fname ≠ k)
    (hproc : processNewField root st fname field = .ok st') :
    alookup st' k = alookup st k := by
  unfold processNewField at hproc
  split at hproc
  · obtain rfl := Except.ok.inj hproc
    rfl
  · obtain ⟨st1, h1, hrest⟩ := bindE_ok hproc
    obtain ⟨st2, h2, hrest2⟩ := bindE_ok hrest
    have e1 : alookup st1 k = alookup st k := by
      split at h1
      · obtain ⟨v, -, hp⟩ := bindE_ok h1
        obtain rfl := Except.ok.inj hp
        exact alookup_aset_ne _ hne _
      · obtain rfl := Except.ok.inj h1
        rfl
    have e2 : alookup st2 k = alookup st1 k := by
      split at h2
      · obtain ⟨v, -, hp⟩ := bindE_ok h2
        obtain rfl := Except.ok.inj hp
        exact alookup_aset_ne _ hne _
      · obtain rfl := Except.ok.inj h2
        rfl
    have e3 := newTail_lookup (k := k) hne hrest2
    have e4 : alookup (if optTruthy field.value then
        aset st2 fname (field.value.getD .vnull) else st2) k = alookup st2 k := by
      split
      · exact alookup_aset_ne _ hne _
      · rfl
    rw [e3, e4, e2, e1]

/-- Pass 1 leaves the binding of a key that the root type does not declare
and that no declared map_to targets untouched. -/
theorem mutate_old_fields_go_preserves {recur : Value → String → Except Err Value}
    {data : Record} {definition : SchemaParser} {root k : String} {st' : Record}
    (hk : ∀ sch, definition.getType root = some sch →
      alookup sch.fields k = none ∧ ∀ p ∈ sch.fields, p.2.map_to ≠ some k)
    (h : mutate_old_fields_go recur data definition root = .ok st') :
    alookup st' k = alookup data k := by
  cases hg : definition.getType root with
  | none =>
      simp only [mutate_old_fields_go, hg, Except.ok.injEq] at h
      rw [← h]
  | some sch =>
      simp only [mutate_old_fields_go, hg] at h
      obtain ⟨hk1, hk2⟩ := hk sch hg
      exact foldlM_lookup_preserved _ k data
        (fun st x stx _ hx => processOldField_preserves hk1 hk2 hx) data st' h

/-- Pass 2 leaves the binding of a key that the root type does not declare
untouched. -/
theorem create_new_fields_preserves {data : Record} {definition : SchemaParser}
    {root k : String} {st' : Record}
    (hk : ∀ sch, definition.getType root = some sch → alookup sch.fields k = none)
    (h : create_new_fields data definition root = .ok st') :
    alookup st' k = alookup data k := by
  cases hg : definition.getType root with
  | none =>
      simp only [create_new_fields, hg, Except.ok.injEq] at h
      rw [← h]
  | some sch =>
      simp only [create_new_fields, hg] at h
      have hk1 := hk sch hg
      refine foldlM_lookup_preserved _ k sch.fields ?_ data st' h
      intro st x stx hmem hx
      obtain ⟨x1, x2⟩ := x
      exact processNewField_preserves (mem_ne_of_alookup_none hk1 hmem) hx

/-! Concrete parsed schemas used to evaluate the engine at specific inputs. -/

/-- Dataset with one field x declaring default "A". -/
def schemaDefaultA : SchemaParser :=
  ⟨[("Dataset", ⟨[("x", { default := some (.vstr "A") })]⟩)]⟩

/-- Dataset with one field x declaring the falsy default "". -/
def schemaDefaultEmpty : SchemaParser :=
  ⟨[("Dataset", ⟨[("x", { default := some (.vstr "") })]⟩)]⟩

/-- Dataset with one field b declaring replace_from a. -/
def schemaReplaceAB : SchemaParser :=
  ⟨[("Dataset", ⟨[("b", { replace_from := some "a" })]⟩)]⟩

/-- Dataset with one field b declaring default_from a. -/
def schemaDefaultFromAB : SchemaParser :=
  ⟨[("Dataset", ⟨[("b", { default_from := some "a" })]⟩)]⟩

/-- Dataset with one field x validated by tsm_string_only. -/
def schemaStringOnlyX : SchemaParser :=
  ⟨[("Dataset", ⟨[("x", { validators := ["tsm_string_only"] })]⟩)]⟩

/-- Dataset with one field x validated by tsm_to_lowercase. -/
def schemaLowerX : SchemaParser :=
  ⟨[("Dataset", ⟨[("x", { validators := ["tsm_to_lowercase"] })]⟩)]⟩

/-- Dataset with one field x declaring map_to y. -/
def schemaMapToXY : SchemaParser :=
  ⟨[("Dataset", ⟨[("x", { map_to := some "y" })]⟩)]⟩

/-- Dataset with a multiple field f of nested type Sub carrying a literal
value, where Sub removes its field k. -/
def schemaNestedSub : SchemaParser :=
  ⟨[("Dataset", ⟨[("f", { value := some (.vlist [.vdict [("k", .vint 1)]]),
                          multiple := true, type := "Sub" })]⟩),
    ("Sub", ⟨[("k", { remove := true })]⟩)]⟩

/-! Claim theorems. -/

/-- C1: the claim says the caller record is not altered by the transmute
action, matching the docstring of the action in the source; the body binds
the record without copying and mutates it in place, so the caller-visible
record after the call (first component) equals the returned record (second
component) and differs from the original input, here under a default fill on
record x:null.  This refutes the claim against the source and witnesses the
contradiction between the body and its own docstring. -/
theorem C1_action_mutates_caller_record :
    transmute 5 [("x", Value.vnull)] schemaDefaultA
      = .ok ([("x", Value.vstr "A")], [("x", Value.vstr "A")])
    ∧ ([("x", Value.vstr "A")] : Record) ≠ [("x", Value.vnull)] :=
  ⟨rfl, by simp⟩

/-- C2 counterexample: transmuting the empty record against the schema with
field x defaulting to "A" yields the empty record, not x:"A" — pass 2 never
consults default, so a declared default cannot create an absent field. -/
theorem C2_counterexample :
    transmute_data_dict schemaDefaultA 5 [] "Dataset" = .ok []
    ∧ ([] : Record) ≠ [("x", Value.vstr "A")] :=
  ⟨rfl, by simp⟩

/-- C2 (amended): a declared default fills a field only when the field is
present with a falsy value; an absent field is not created, so the empty
record transmutes to the empty record while record x:null transmutes to
x:"A". -/
theorem C2_default_fills_only_present_falsy :
    transmute_data_dict schemaDefaultA 5 [] "Dataset" = .ok []
    ∧ transmute_data_dict schemaDefaultA 5 [("x", Value.vnull)] "Dataset"
        = .ok [("x", Value.vstr "A")] :=
  ⟨rfl, rfl⟩

/-- C3 counterexample: a falsy declared default (the empty string) does not
fill a present falsy field — the source tests the default itself for
truthiness — so x stays null instead of becoming "". -/
theorem C3_counterexample :
    mutate_old_fields schemaDefaultEmpty 5 [("x", Value.vnull)] "Dataset"
      = .ok [("x", Value.vnull)]
    ∧ Value.vnull ≠ Value.vstr "" :=
  ⟨rfl, by simp⟩

/-- C3 (amended): pass 1 sets a present falsy field to its declared default
exactly when the default itself is truthy; the other sourcing attributes
being undeclared and the validator chain empty, the field ends up holding
the default. -/
theorem C3_truthy_default_fills (recur : Value → String → Except Err Value)
    (schema : TypeSchema) (root : String) (st : Record) (fname : String)
    (field : SchemaField) (v : Value)
    (hlook : alookup schema.fields fname = some field)
    (hrem : field.remove = false)
    (hdef : optTruthy field.default = true)
    (hv : truthy v = false)
    (hrep : strTruthy field.replace_from = false)
    (hval : optTruthy field.value = false)
    (hmul : field.is_multiple = false)
    (hvs : field.validators = [])
    (hmap : strTruthy field.map_to = false) :
    ∃ st', processOldField recur schema root st fname v = .ok st'
      ∧ alookup st' fname = field.default := by
  obtain ⟨d, hd⟩ : ∃ d, field.default = some d := by
    cases hfd : field.default
    · rw [hfd] at hdef; simp [optTruthy] at hdef
    · exact ⟨_, rfl⟩
  have htd : truthy d = true := by rw [hd] at hdef; simpa [optTruthy] using hdef
  refine ⟨aset (aset st fname d) fname d, ?_, ?_⟩
  · simp [processOldField, hlook, hrem, stepDefault, stepDefaultFrom,
      stepReplaceFrom, stepValue, stepValidate, stepMapTo, apply_validators,
      applyChain, Except.bind, optTruthy_some, hd, htd, hdef, hv, hrep, hval,
      hmul, hvs, hmap]
  · rw [hd]
    exact alookup_aset_self _ _ _

/-- C3 witness: the amended theorem applied to the schema declaring the
truthy default "A" for x and the record holding x:null. -/
theorem C3_witness :
    ∃ st', processOldField (fun v _ => .ok v)
        ⟨[("x", { default := some (.vstr "A") })]⟩ "Dataset"
        [("x", Value.vnull)] "x" Value.vnull = .ok st'
      ∧ alookup st' "x" = some (Value.vstr "A") :=
  C3_truthy_default_fills (fun v _ => .ok v)
    ⟨[("x", { default := some (.vstr "A") })]⟩ "Dataset"
    [("x", Value.vnull)] "x" { default := some (.vstr "A") } Value.vnull
    rfl rfl rfl rfl rfl rfl rfl rfl rfl

/-- C4: calling the engine entry with a root type absent from the types
mapping of the parsed schema returns the data unchanged as a no-op, for
every record, schema and fuel. -/
theorem C4_unknown_root_type_noop (definition : SchemaParser) (fuel : Nat)
    (data : Value) (root : String)
    (h : definition.getType root = none) :
    transmute_data definition (fuel + 1) data root = .ok data := by
  simp [transmute_data, h]

/-- C4 witness: the no-op theorem applied to a concrete record and a root
type the schema does not declare. -/
theorem C4_witness :
    transmute_data schemaDefaultA 5 (Value.vdict [("a", Value.vint 1)]) "Resource"
      = .ok (Value.vdict [("a", Value.vint 1)]) :=
  C4_unknown_root_type_noop schemaDefaultA 4 (Value.vdict [("a", Value.vint 1)])
    "Resource" rfl

/-- C5: whenever a default_from or replace_from reference names a sibling
absent from the record at lookup time, the step fails with the missing-key
error (the MissingData condition of the spec), in pass 1 and in pass 2, and
an end-to-end engine call on such a schema aborts with that error and no
partial result. -/
theorem C5_missing_sibling_fails :
    (∀ (recur : Value → String → Except Err Value) (schema : TypeSchema)
       (root : String) (st : Record) (fname : String) (field : SchemaField)
       (v : Value),
      alookup schema.fields fname = some field →
      field.remove = false →
      optTruthy field.default = false →
      strTruthy field.default_from = true →
      truthy v = false →
      alookup st field.get_default_from = none →
      processOldField recur schema root st fname v
        = .error (.missingData field.get_default_from))
    ∧ (∀ (recur : Value → String → Except Err Value) (schema : TypeSchema)
         (root : String) (st : Record) (fname : String) (field : SchemaField)
         (v : Value),
        alookup schema.fields fname = some field →
        field.remove = false →
        optTruthy field.default = false →
        strTruthy field.default_from = false →
        strTruthy field.replace_from = true →
        alookup st field.get_replace_from = none →
        processOldField recur schema root st fname v
          = .error (.missingData field.get_replace_from))
    ∧ (∀ (root : String) (st : Record) (fname : String) (field : SchemaField),
        alookup st fname = none →
        strTruthy field.default_from = true →
        alookup st field.get_default_from = none →
        processNewField root st fname field
          = .error (.missingData field.get_default_from))
    ∧ (∀ (root : String) (st : Record) (fname : String) (field : SchemaField),
        alookup st fname = none →
        strTruthy field.default_from = false →
        strTruthy field.replace_from = true →
        alookup st field.get_replace_from = none →
        processNewField root st fname field
          = .error (.missingData field.get_replace_from))
    ∧ transmute_data_dict schemaDefaultFromAB 5 [("b", Value.vnull)] "Dataset"
        = .error (.missingData "a")
    ∧ transmute_data_dict schemaDefaultFromAB 5 [] "Dataset"
        = .error (.missingData "a") := by
  refine ⟨?_, ?_, ?_, ?_, rfl, rfl⟩
  · intro recur schema root st fname field v hlook hrem hdef hdf hv habs
    simp [processOldField, hlook, hrem, stepDefault, stepDefaultFrom, aget,
      Except.bind, hdef, hdf, hv, habs]
  · intro recur schema root st fname field v hlook hrem hdef hdf hrf habs
    simp [processOldField, hlook, hrem, stepDefault, stepDefaultFrom,
      stepReplaceFrom, aget, Except.bind, hdef, hdf, hrf, habs]
  · intro root st fname field habsf hdf habs
    simp [processNewField, aget, Except.bind, habsf, hdf, habs]
  · intro root st fname field habsf hdf hrf habs
    simp [processNewField, aget, Except.bind, habsf, hdf, hrf, habs]

/-- C5 witness: the four parts of the theorem applied to concrete records
and descriptors whose referenced sibling a is absent. -/
theorem C5_witness :
    processOldField (fun v _ => .ok v)
        ⟨[("b", { default_from := some "a" })]⟩ "Dataset"
        [("b", Value.vnull)] "b" Value.vnull = .error (.missingData "a")
    ∧ processOldField (fun v _ => .ok v)
        ⟨[("b", { replace_from := some "a" })]⟩ "Dataset"
        [("b", Value.vstr "old")] "b" (Value.vstr "old")
        = .error (.missingData "a")
    ∧ processNewField "Dataset" [] "b" { default_from := some "a" }
        = .error (.missingData "a")
    ∧ processNewField "Dataset" [] "b" { replace_from := some "a" }
        = .error (.missingData "a") :=
  ⟨C5_missing_sibling_fails.1 (fun v _ => .ok v)
      ⟨[("b", { default_from := some "a" })]⟩ "Dataset"
      [("b", Value.vnull)] "b" { default_from := some "a" } Value.vnull
      rfl rfl rfl rfl rfl rfl,
   C5_missing_sibling_fails.2.1 (fun v _ => .ok v)
      ⟨[("b", { replace_from := some "a" })]⟩ "Dataset"
      [("b", Value.vstr "old")] "b" { replace_from := some "a" }
      (Value.vstr "old") rfl rfl rfl rfl rfl rfl,
   C5_missing_sibling_fails.2.2.1 "Dataset" [] "b" { default_from := some "a" }
      rfl rfl rfl,
   C5_missing_sibling_fails.2.2.2.1 "Dataset" [] "b" { replace_from := some "a" }
      rfl rfl rfl rfl⟩

/-- Whether an error is the engine ValidationError. -/
def Err.isValidationError : Err → Bool
  | .validationError _ _ => true
  | _ => false

/-- C6 counterexample: a transmutator can fail with an error that is not an
Invalid — tsm_to_lowercase on an integer fails attribute access — and then
the engine does not raise a ValidationError with the composite key: the
failure propagates unconverted, both at the validator-application level and
end to end. -/
theorem C6_counterexample :
    apply_validators ⟨"x", Value.vint 5, "Dataset"⟩ ["tsm_to_lowercase"]
      = .error .attributeError
    ∧ Err.isValidationError .attributeError = false
    ∧ transmute_data_dict schemaLowerX 5 [("x", Value.vint 5)] "Dataset"
        = .error .attributeError :=
  ⟨rfl, rfl, rfl⟩

/-- C6 (amended): whenever a transmutator fails with an Invalid error, the
engine raises a ValidationError whose payload maps the single composite key
type:field_name of the field the failing transmutator received to the
one-element list holding the message, and an engine call on such a field
aborts with exactly that error; a transmutator failure that is not an
Invalid propagates unconverted. -/
theorem C6_invalid_failure_validation_error :
    (∀ (f : Field) (name : String) (g : Field → Except Err Field)
       (msg : String) (rest : List String),
      get_validator name = some g →
      g f = .error (.invalid msg) →
      apply_validators f (name :: rest)
        = .error (.validationError (f.type ++ ":" ++ f.field_name) [msg]))
    ∧ transmute_data_dict schemaStringOnlyX 5 [("x", Value.vint 7)] "Dataset"
        = .error (.validationError "Dataset:x" ["Must be a string value"]) := by
  refine ⟨?_, rfl⟩
  intro f name g msg rest hg hf
  simp [apply_validators, applyChain, hg, hf]

/-- C6 witness: the amended theorem applied to tsm_string_only failing on an
integer value, producing the Dataset:x key with the single message. -/
theorem C6_witness :
    apply_validators ⟨"x", Value.vint 7, "Dataset"⟩ ["tsm_string_only"]
      = .error (.validationError "Dataset:x" ["Must be a string value"]) :=
  C6_invalid_failure_validation_error.1 ⟨"x", Value.vint 7, "Dataset"⟩
    "tsm_string_only" string_only "Must be a string value" [] rfl rfl

/-- C7: tsm_string_only fails with Invalid carrying the message
"Must be a string value" exactly when the field value is not a string, and
returns the field unchanged when the value is a string. -/
theorem C7_string_only_iff (f : Field) :
    (f.value.isStr = true → string_only f = .ok f)
    ∧ (f.value.isStr = false →
        string_only f = .error (.invalid "Must be a string value")) := by
  constructor <;> intro h <;> simp [string_only, h]

/-- C7 witness: both directions of the theorem at concrete fields, a string
value returned unchanged and an integer value rejected. -/
theorem C7_witness :
    string_only ⟨"t", Value.vstr "s", "Dataset"⟩
      = .ok ⟨"t", Value.vstr "s", "Dataset"⟩
    ∧ string_only ⟨"t", Value.vint 1, "Dataset"⟩
        = .error (.invalid "Must be a string value") :=
  ⟨(C7_string_only_iff ⟨"t", Value.vstr "s", "Dataset"⟩).1 rfl,
   (C7_string_only_iff ⟨"t", Value.vint 1, "Dataset"⟩).2 rfl⟩

/-- C8: a declared replace_from overwrites the field with the referenced
sibling value unconditionally in pass 1, with no falsiness test on the
current value: the step-level statement holds for every prior value v, and
on the record a:vsib, b:vold with b declaring replace_from a the pass yields
b = vsib for all values vold, including non-falsy ones. -/
theorem C8_replace_from_unconditional :
    (∀ (recur : Value → String → Except Err Value) (schema : TypeSchema)
       (root : String) (st : Record) (fname : String) (field : SchemaField)
       (v vsib : Value),
      alookup schema.fields fname = some field →
      field.remove = false →
      optTruthy field.default = false →
      strTruthy field.default_from = false →
      strTruthy field.replace_from = true →
      alookup st field.get_replace_from = some vsib →
      optTruthy field.value = false →
      field.is_multiple = false →
      field.validators = [] →
      strTruthy field.map_to = false →
      ∃ st', processOldField recur schema root st fname v = .ok st'
        ∧ alookup st' fname = some vsib)
    ∧ ∀ (vold vsib : Value),
        mutate_old_fields schemaReplaceAB 5 [("a", vsib), ("b", vold)] "Dataset"
          = .ok [("a", vsib), ("b", vsib)] := by
  constructor
  · intro recur schema root st fname field v vsib hlook hrem hdef hdf hrf
      hsib hval hmul hvs hmap
    refine ⟨aset (aset st fname vsib) fname vsib, ?_, ?_⟩
    · simp [processOldField, hlook, hrem, stepDefault, stepDefaultFrom,
        stepReplaceFrom, stepValue, stepValidate, stepMapTo, apply_validators,
        applyChain, aget, Except.bind, hdef, hdf, hrf, hsib, hval, hmul,
        hvs, hmap]
    · exact alookup_aset_self _ _ _
  · intro vold vsib
    rfl

/-- C8 witness: the step-level part applied to the record a:"v2", b:"old"
where b, already holding the non-falsy value "old", is overwritten with the
sibling value "v2". -/
theorem C8_witness :
    ∃ st', processOldField (fun v _ => .ok v)
        ⟨[("b", { replace_from := some "a" })]⟩ "Dataset"
        [("a", Value.vstr "v2"), ("b", Value.vstr "old")] "b" (Value.vstr "old")
        = .ok st'
      ∧ alookup st' "b" = some (Value.vstr "v2") :=
  C8_replace_from_unconditional.1 (fun v _ => .ok v)
    ⟨[("b", { replace_from := some "a" })]⟩ "Dataset"
    [("a", Value.vstr "v2"), ("b", Value.vstr "old")] "b"
    { replace_from := some "a" } (Value.vstr "old") (Value.vstr "v2")
    rfl rfl rfl rfl rfl rfl rfl rfl rfl rfl

/-- C9: pass 2 creates a field by writing the sourced value and applying the
scalar validator chain only, never the multiple recursion branch: the result
of the step is the same for every value of the multiple flag and of the
nested type name, the sourced literal is written unrecursed, and on the
nested schema the same descriptor makes pass 1 recurse (removing k inside
the element) while pass 2 leaves the created literal with k intact; and a
validator chain on a created field is applied to the value as a scalar even
when the multiple flag is set and the value is a list of nested records, so
tsm_string_only rejects it instead of any recursion happening. -/
theorem C9_pass2_scalar_no_recursion :
    (∀ (root fname : String) (st : Record) (mult : Bool) (ty : String)
       (lit : Value),
      alookup st fname = none →
      truthy lit = true →
      processNewField root st fname
        { value := some lit, multiple := mult, type := ty, validators := [] }
        = .ok (aset st fname lit))
    ∧ transmute_data_dict schemaNestedSub 5
        [("f", Value.vlist [Value.vdict [("k", Value.vint 9)]])] "Dataset"
        = .ok [("f", Value.vlist [Value.vdict []])]
    ∧ transmute_data_dict schemaNestedSub 5 [] "Dataset"
        = .ok [("f", Value.vlist [Value.vdict [("k", Value.vint 1)]])]
    ∧ processNewField "Dataset" [] "g"
        { value := some (Value.vlist [Value.vdict []]), multiple := true,
          type := "Sub", validators := ["tsm_string_only"] }
        = .error (.validationError "Dataset:g" ["Must be a string value"]) := by
  refine ⟨?_, rfl, rfl, rfl⟩
  intro root fname st mult ty lit habs htr
  simp [processNewField, aget, apply_validators, applyChain, Except.bind,
    optTruthy_some, strTruthy_none, habs, htr, alookup_aset_self, aset_aset]

/-- C9 witness: the step-level part applied with the multiple flag set and a
nested-record literal: the literal is created unchanged, not recursed into. -/
theorem C9_witness :
    processNewField "Dataset" [] "f"
      { value := some (Value.vlist [Value.vdict [("k", Value.vint 1)]]),
        multiple := true, type := "Sub", validators := [] }
      = .ok [("f", Value.vlist [Value.vdict [("k", Value.vint 1)]])] :=
  C9_pass2_scalar_no_recursion.1 "Dataset" "f" [] true "Sub"
    (Value.vlist [Value.vdict [("k", Value.vint 1)]]) rfl rfl

/-- C10 counterexample: an undeclared field is not always left untouched —
on the record x:"v", y:"w" where the schema declares only x with map_to y,
the undeclared field y ends up bound to "v", losing its value "w". -/
theorem C10_counterexample :
    transmute_data_dict schemaMapToXY 5
      [("x", Value.vstr "v"), ("y", Value.vstr "w")] "Dataset"
      = .ok [("y", Value.vstr "v")]
    ∧ Value.vstr "v" ≠ Value.vstr "w" :=
  ⟨rfl, by simp⟩

/-- C10 (amended): for every record, schema, fuel and root, a key that the
root type does not declare among its fields and that no declared field
renames onto through map_to keeps exactly its binding (same key, same value)
across a successful engine call: neither pass removes, renames or
revalidates it. -/
theorem C10_undeclared_unmapped_key_untouched
    (definition : SchemaParser) (fuel : Nat) (data st' : Record)
    (root k : String)
    (hk : ∀ sch, definition.getType root = some sch →
      alookup sch.fields k = none ∧ ∀ p ∈ sch.fields, p.2.map_to ≠ some k)
    (h : transmute_data_dict definition fuel data root = .ok st') :
    alookup st' k = alookup data k := by
  cases hg : definition.getType root with
  | none =>
      simp only [transmute_data_dict, hg, Except.ok.injEq] at h
      rw [← h]
  | some sch =>
      simp only [transmute_data_dict, hg, transmute_body] at h
      obtain ⟨d1, h1, h2⟩ := bindE_ok h
      rw [create_new_fields_preserves (fun s hs => (hk s hs).1) h2,
          mutate_old_fields_go_preserves hk h1]

/-- C10 witness: the amended theorem applied to the default-fill schema and
a record carrying the undeclared key z, whose binding survives the call that
rewrites x. -/
theorem C10_witness :
    transmute_data_dict schemaDefaultA 5
      [("z", Value.vstr "w"), ("x", Value.vnull)] "Dataset"
      = .ok [("z", Value.vstr "w"), ("x", Value.vstr "A")]
    ∧ alookup [("z", Value.vstr "w"), ("x", Value.vstr "A")] "z"
        = alookup [("z", Value.vstr "w"), ("x", Value.vnull)] "z" := by
  refine ⟨rfl, C10_undeclared_unmapped_key_untouched schemaDefaultA 5
    [("z", Value.vstr "w"), ("x", Value.vnull)]
    [("z", Value.vstr "w"), ("x", Value.vstr "A")] "Dataset" "z" ?_ rfl⟩
  intro sch hsch
  obtain rfl := Option.some.inj hsch
  refine ⟨rfl, ?_⟩
  intro p hp
  simp only [List.mem_singleton] at hp
  rw [hp]
  simp

end Transmute
